import Mathlib

/-!
Formal model of the COVID-19 data-preparation and visualization layer
(`covid19/data.py` and `simulator/pages/utils/viz.py`).

The pandas pipelines are shallow-embedded: a raw CSV table is a list of
records, `groupby`/`sum` is a filtered fold, `unstack` produces a wide
table whose missing cells are `Option.none` (pandas `NaN`) until
`fillna`, and `sort_index` is insertion sort on the index values.
Case counts are modelled as `Int` (the CSV columns carry integer
counts); the per-iteration simulation values handled by the
reshaping helpers are left polymorphic where the code is
value-agnostic, and are `ℝ` where `np.mean`/`np.std` are applied.
-/

/-! ### data.py : URLs and argument validation (`load_cases`, lines 58-90) -/

def COVID_19_BY_CITY_URL : String :=
  "https://raw.githubusercontent.com/wcota/covid19br/master/cases-brazil-cities-time.csv"

def COVID_SAUDE_URL : String :=
  "https://raw.githubusercontent.com/3778/COVID-19/master/data/latest_cases_ms.csv"

def FIOCRUZ_URL : String :=
  "https://bigdata-covid19.icict.fiocruz.br/sd/dados_casos.csv"

/-- Outcome of the control flow of `load_cases` up to the first network
access: either a failed `assert` statement, or the `pd.read_csv` call on
the URL chosen for `source`. -/
inductive FetchStep where
  | assertionError : FetchStep
  | fetch : String → FetchStep
deriving DecidableEq

/-- Control flow of `load_cases(by, source)` before any data is read:
`assert source in ['ms', 'wcota', 'fiocruz']`, then
`assert by in ['state', 'city']`, then inside the `ms` branch
`assert by == 'state'`, and otherwise the branch's `pd.read_csv` runs. -/
def load_cases_dispatch (b source : String) : FetchStep :=
  if ¬ (source = "ms" ∨ source = "wcota" ∨ source = "fiocruz") then .assertionError
  else if ¬ (b = "state" ∨ b = "city") then .assertionError
  else if source = "ms" then
    if ¬ (b = "state") then .assertionError else .fetch COVID_SAUDE_URL
  else if source = "wcota" then .fetch COVID_19_BY_CITY_URL
  else .fetch FIOCRUZ_URL

/-! ### data.py : the final reshaping of `load_cases` (lines 83-90)

After the source-specific normalization every branch holds a long-form
frame with columns `date`, the region key (`state` or `city`),
`newCases` and `totalCases`, and then runs

    df.groupby(['date', by])[['newCases', 'totalCases']].sum()
      .unstack(by).sort_index().swaplevel(axis=1).fillna(0).astype(int)

Dates are modelled as naturals (ordinal days), regions as strings. -/

structure RawRow where
  date : Nat
  region : String
  newCases : Int
  totalCases : Int
deriving DecidableEq

/-- Measure names selected by `[['newCases', 'totalCases']]`. -/
def measuresList : List String := ["newCases", "totalCases"]

/-- Two-level pandas column index, recorded through its `levels` lists:
`outer` is `columns.levels[0]`, `inner` is `columns.levels[1]`. -/
structure ColIndex where
  outer : List String
  inner : List String
deriving DecidableEq

/-- Row index of the pivoted frame: the distinct dates, ascending
(`groupby` sorts its keys and `sort_index` sorts the row index). -/
def tableDatesOf (rows : List RawRow) : List Nat :=
  List.insertionSort (· ≤ ·) (rows.map RawRow.date).dedup

/-- Distinct region keys, ascending: `unstack(by)` places the unstacked
level's categories in sorted order. -/
def tableRegionsOf (rows : List RawRow) : List String :=
  List.insertionSort (· ≤ ·) (rows.map RawRow.region).dedup

/-- Column index produced by `.unstack(by)`: outer level the selected
measures, inner level the region keys. -/
def unstackColIndex (rows : List RawRow) : ColIndex :=
  ⟨measuresList, tableRegionsOf rows⟩

/-- Model of `.swaplevel(axis=1)`: the two column levels change places. -/
def swaplevelCI (ci : ColIndex) : ColIndex :=
  ⟨ci.inner, ci.outer⟩

/-- Model of `groupby(['date', by])['newCases'].sum()` at one group key. -/
def groupSumNew (rows : List RawRow) (d : Nat) (reg : String) : Int :=
  ((rows.filter (fun r => r.date = d ∧ r.region = reg)).map RawRow.newCases).sum

/-- Model of `groupby(['date', by])['totalCases'].sum()` at one group key. -/
def groupSumTotal (rows : List RawRow) (d : Nat) (reg : String) : Int :=
  ((rows.filter (fun r => r.date = d ∧ r.region = reg)).map RawRow.totalCases).sum

/-- Cell of the pivoted frame before `fillna(0)`: `unstack` leaves `NaN`
(here `none`) at every (date, region) pair with no underlying row. -/
def cellOpt (rows : List RawRow) (d : Nat) (reg : String) (m : String) : Option Int :=
  if rows.any (fun r => r.date = d ∧ r.region = reg) then
    some (if m = "newCases" then groupSumNew rows d reg else groupSumTotal rows d reg)
  else none

/-- Model of `.fillna(0)` on one cell. -/
def fillna0 (o : Option Int) : Int :=
  o.getD 0

/-- Wide table returned by `load_cases`: row index `dates`, two-level
column index `colIndex`, and integer cells (`astype(int)`; the sums of
integer counts are integral, so the value map of the cast is the
identity and only the dtype changes). -/
structure CasesTable where
  dates : List Nat
  colIndex : ColIndex
  cell : Nat → String → String → Int

/-- Model of lines 83-90 of `data.py`: group by (date, region), sum the
two measures, unstack the region level, sort the row index, swap the
column levels, fill missing cells with 0, cast to integer. -/
def load_cases_table (rows : List RawRow) : CasesTable :=
  { dates := tableDatesOf rows
    colIndex := swaplevelCI (unstackColIndex rows)
    cell := fun d reg m => fillna0 (cellOpt rows d reg m) }

/-! ### data.py : the fiocruz branch (lines 77-81)

For `source='fiocruz'` the frame (after `prepare_fiocruz_data`) has
columns `date`, region key and `newCases`, and the running total is
derived by `df['totalCases'] = df.groupby([by])['newCases'].cumsum()`
before the common reshaping above.  `groupby(...).cumsum()` assigns to
each row the sum of `newCases` over the rows up to and including it (in
frame order) that carry the same region. -/

structure FRow where
  date : Nat
  region : String
  newCases : Int
deriving DecidableEq

/-- Sum of `newCases` over the rows of `l` whose region is `reg`. -/
def regionSum (l : List FRow) (reg : String) : Int :=
  ((l.filter (fun r => r.region = reg)).map FRow.newCases).sum

/-- Model of `groupby([by])['newCases'].cumsum()`: each row of `rows` is
paired with the sum of `newCases` over the same-region rows seen so far
(`pre` is the already-processed part of the frame). -/
def withCumsum : List FRow → List FRow → List (FRow × Int)
  | _, [] => []
  | pre, r :: rs => (r, regionSum (pre ++ [r]) r.region) :: withCumsum (pre ++ [r]) rs

/-- The `totalCases` cell of the `load_cases` output for
`source='fiocruz'` at (date `d`, region `reg`): the final
`groupby(['date', by]).sum()` adds the cumulative values of all rows at
that key, and `fillna(0)` yields 0 where the region has no row. -/
def fiocruz_totalCases (rows : List FRow) (d : Nat) (reg : String) : Int :=
  (((withCumsum [] rows).filter (fun q => q.1.date = d ∧ q.1.region = reg)).map Prod.snd).sum

/-- Row index of the fiocruz-derived table: the distinct dates of all
regions (ascending). -/
def fiocruzTableDates (rows : List FRow) : List Nat :=
  List.insertionSort (· ≤ ·) (rows.map FRow.date).dedup

/-- Sum of `newCases` over the rows of region `reg` dated at most `d`
(the date-ordered running total a cumulative sum is expected to give). -/
def regionSumLe (l : List FRow) (reg : String) (d : Nat) : Int :=
  ((l.filter (fun r => r.region = reg ∧ r.date ≤ d)).map FRow.newCases).sum

/-! ### viz.py : `plot_r0` (lines 217-225)

The function starts with `r0_samples_cut = r0_samples[-min_days:]` and
then labels the columns of the cut with calendar dates
(`pd.date_range(end=date, periods=r0_samples_cut.shape[1])`).  A
two-dimensional ndarray is a list of its axis-0 rows; Python's
`a[-k:]` keeps the last `k` rows for `1 ≤ k ≤ len(a)`, the whole array
for `k = 0` (since `-0 == 0`) and for `k ≥ len(a)`. -/

/-- Model of `r0_samples[-min_days:]`: numpy basic slicing acts on the
first axis only. -/
def plot_r0_cut {α : Type} (r0_samples : List (List α)) (min_days : Nat) : List (List α) :=
  if min_days = 0 then r0_samples
  else r0_samples.drop (r0_samples.length - min_days)

/-- Modelled from the spec: "restricts to the most recent `min_days`
columns" — the same slice applied to the second axis (the day columns,
the axis the function labels with dates), i.e. `r0_samples[:, -min_days:]`.
Stated for comparison with `plot_r0_cut`, which is what the code runs. -/
def restrict_last_columns {α : Type} (r0_samples : List (List α)) (min_days : Nat) : List (List α) :=
  r0_samples.map (fun row =>
    if min_days = 0 then row else row.drop (row.length - min_days))

/-! ### viz.py : `_treat_negative_values_to_plot` (lines 118-121)

    numeric_columns = [col for col in df.columns if is_numeric_dtype(col)]
    df[df[numeric_columns] <= 0][numeric_columns] = 1.0
    return df

The comprehension applies `is_numeric_dtype` to each column *label* (a
string), not to the column's data, so `numeric_columns` is empty; and
the assignment targets `df[mask]`, which is a fresh frame produced by
`__getitem__` (boolean-frame indexing is `DataFrame.where`, a copy), so
the `__setitem__` lands on that temporary and `df` itself is returned
untouched.  Chart data values are modelled as `Int` (the clamp logic is
value-generic; only the comparison with 0 matters). -/

/-- Chart data frame: labelled columns of values. -/
structure PlotDF where
  cols : List (String × List Int)
deriving DecidableEq

/-- Result of `pandas.api.types.is_numeric_dtype` on a column *label*:
a Python string is not a numeric dtype, so the answer is `false`. -/
def is_numeric_dtype_of_label (_s : String) : Bool := false

/-- Model of `[col for col in df.columns if is_numeric_dtype(col)]`. -/
def numeric_columns_of (df : PlotDF) : List String :=
  (df.cols.map Prod.fst).filter is_numeric_dtype_of_label

/-- Model of the temporary `df[df[numeric_columns] <= 0]`: boolean-frame
indexing keeps a cell where the mask holds (the cell belongs to a masked
column and is ≤ 0) and puts `NaN` (`none`) elsewhere; the result is a
new frame, not a view of `df`. -/
def mask_where_le_zero (df : PlotDF) (numcols : List String) :
    List (String × List (Option Int)) :=
  df.cols.map (fun c =>
    (c.1, c.2.map (fun v => if c.1 ∈ numcols ∧ v ≤ 0 then some v else none)))

/-- Model of `tmp[numeric_columns] = 1.0` on the temporary frame. -/
def set_columns_to_one (tmp : List (String × List (Option Int))) (numcols : List String) :
    List (String × List (Option Int)) :=
  tmp.map (fun c => if c.1 ∈ numcols then (c.1, c.2.map (fun _ => some 1)) else c)

/-- Model of `_treat_negative_values_to_plot`: the masked copy is built
and written to, then discarded; the function returns `df` itself. -/
def treat_negative_values_to_plot (df : PlotDF) : PlotDF :=
  let numeric_columns := numeric_columns_of df
  let _discarded := set_columns_to_one (mask_where_le_zero df numeric_columns) numeric_columns
  df

/-! ### viz.py : `unstack_iterations_ndarray` (lines 24-30)

    pd.DataFrame(arr, index=t_space).unstack().reset_index()
      .rename(columns={"level_0": "iteration", "level_1": "Dias", 0: name})

`pd.DataFrame(arr, index=t_space)` labels the *rows* of `arr` with
`t_space` — it raises (`ValueError: Length mismatch`) unless `arr` has
exactly `len(t_space)` rows — and numbers the columns `0..N-1`.
`DataFrame.unstack()` on a flat index yields the long series ordered
column-major, with outer key the column number (`level_0`, the
iteration) and inner key the row label (`level_1`, the time step). -/

structure LongRow (α : Type) where
  iteration : Nat
  dias : Nat
  value : α
deriving DecidableEq

/-- One column group of the unstacked series: column (iteration) `c`
paired with every (row label, row) pair, reading off the cell in column
`c`.  The `getD` default is never reached on a rectangular ndarray. -/
def unstackGroup {α : Type} [Inhabited α] (t_space : List Nat) (arr : List (List α))
    (c : Nat) : List (LongRow α) :=
  (t_space.zip arr).map (fun p => ⟨c, p.1, p.2.getD c default⟩)

/-- Model of `unstack_iterations_ndarray(arr, t_space, name)`: `none` is
the `ValueError` raised by the `pd.DataFrame` constructor when the row
count of `arr` differs from `len(t_space)`; otherwise the long series,
column-major. -/
def unstack_iterations_ndarray {α : Type} [Inhabited α]
    (arr : List (List α)) (t_space : List Nat) : Option (List (LongRow α)) :=
  if arr.length = t_space.length then
    some ((List.range (arr.headD []).length).flatMap (unstackGroup t_space arr))
  else none

/-! ### viz.py : `compute_mean_and_boundaries` (lines 38-51) -/

/-- Name `plot_params["exposto"]["name"]`. -/
def exposto_name : String := "Exposto"

/-- Name `plot_params["infectado"]["name"]`. -/
def infectado_name : String := "Infectado"

/-- Name `plot_params["obito"]["name"]`. -/
def obito_name : String := "Óbito"

/-- Long-form frame handed to `compute_mean_and_boundaries`: a list of
data column names plus `"Dias"`, and rows pairing the `Dias` group key
with the cells of the data columns.  Cell values are real numbers. -/
structure VizDF where
  dataCols : List String
  rows : List (Nat × (String → ℝ))

/-- Column list of the frame, as seen by `variable not in df.columns`. -/
def VizDF.columns (df : VizDF) : List String :=
  df.dataCols ++ ["Dias"]

/-- Cell of a row at a column name; the `"Dias"` column holds the group
key itself. -/
def vizCell (r : Nat × (String → ℝ)) (c : String) : ℝ :=
  if c = "Dias" then (r.1 : ℝ) else r.2 c

/-- View of the output of `unstack_iterations_ndarray` as the frame with
columns `["iteration", "Dias", name]`. -/
def longToVizDF (name : String) (l : List (LongRow ℝ)) : VizDF :=
  { dataCols := ["iteration", name]
    rows := l.map (fun r =>
      (r.dias, fun c => if c = name then r.value else
                        if c = "iteration" then (r.iteration : ℝ) else 0)) }

/-- Arithmetic mean, as computed by `np.mean` (0/0 = 0 on empty input is
irrelevant: groups are never empty). -/
noncomputable def npMean (l : List ℝ) : ℝ :=
  l.sum / l.length

/-- Sample standard deviation as computed by the `np.std` aggregation
inside `DataFrame.agg` (pandas maps `np.std` to its own `std`, which
uses `ddof=1`; the exact estimator is irrelevant to the claims). -/
noncomputable def npStd (l : List ℝ) : ℝ :=
  Real.sqrt ((l.map (fun x => (x - npMean l) ^ 2)).sum / (l.length - 1))

/-- Group keys of `df.groupby("Dias")`: the distinct `Dias` values, in
ascending order (pandas sorts group keys). -/
def groupKeys (df : VizDF) : List Nat :=
  List.insertionSort (· ≤ ·) (df.rows.map Prod.fst).dedup

/-- Row of the aggregated frame: the `Dias` index value and the four
derived statistics (`agg` with mean/std, then the two `assign` calls). -/
structure AggRow where
  dias : Nat
  mean : ℝ
  std : ℝ
  upper : ℝ
  lower : ℝ

/-- Aggregated frame: the column names after `add_prefix` and one row
per group key. -/
structure AggDF where
  cols : List String
  rows : List AggRow

/-- Message of the `ValueError` raised by `compute_mean_and_boundaries`
(`var` stands for the Python parameter `variable`, a Lean keyword). -/
def no_column_msg (var : String) : String :=
  "No column named " ++ var ++ ". Variable name must refer to a dataframe column"

/-- Model of `compute_mean_and_boundaries(df, variable)`: raise unless
the variable is a column; group by `"Dias"`; aggregate mean and std of
the variable's column; `upper = mean + std`; `lower = mean - std`;
`add_prefix` turns each column name `c` into `variable + "_" + c`. -/
noncomputable def compute_mean_and_boundaries (df : VizDF) (var : String) :
    Except String AggDF :=
  if var ∈ VizDF.columns df then
    Except.ok
      { cols := [var ++ "_" ++ "mean", var ++ "_" ++ "std",
                 var ++ "_" ++ "upper", var ++ "_" ++ "lower"]
        rows := (groupKeys df).map (fun g =>
          let vals := (df.rows.filter (fun r => r.1 = g)).map (fun r => vizCell r var)
          ⟨g, npMean vals, npStd vals, npMean vals + npStd vals, npMean vals - npStd vals⟩) }
  else Except.error (no_column_msg var)

/-! ### viz.py : `prep_tidy_data_to_plot` (lines 54-77) -/

/-- Model of `agg_df_E.merge(agg_df_I, how="left", left_index=True,
right_index=True, validate="1:1")`: pandas first checks that the merge
keys are unique on both sides (`MergeError` otherwise), then left-joins;
an unmatched left row would get `NaN` statistics, modelled by zeros
(never used by the claims). -/
noncomputable def merge_validate_1to1 (A B : AggDF) :
    Except String (List (AggRow × AggRow)) :=
  if (A.rows.map AggRow.dias).Nodup ∧ (B.rows.map AggRow.dias).Nodup then
    Except.ok (A.rows.map (fun ra =>
      (ra, (B.rows.filter (fun rb => rb.dias = ra.dias)).headD ⟨ra.dias, 0, 0, 0, 0⟩)))
  else Except.error "Merge keys are not unique in either left or right dataset; not a one-to-one merge"

/-- Row of the tidy frame returned by `prep_tidy_data_to_plot`: the
time step, the exposed and infected aggregates, and the calendar date
`Datas` (dates as integer day ordinals, `start_date + timedelta(Dias)`). -/
structure TidyRow where
  dias : Nat
  e : AggRow
  i : AggRow
  datas : Int

/-- Model of `prep_tidy_data_to_plot(E, I, t_space, start_date)`:
unstack both arrays, aggregate both long frames, merge them with the
1:1 validation, and append `Datas = start_date + timedelta(Dias)`. -/
noncomputable def prep_tidy_data_to_plot (E I : List (List ℝ)) (t_space : List Nat)
    (start_date : Int) : Except String (List TidyRow) :=
  match unstack_iterations_ndarray E t_space, unstack_iterations_ndarray I t_space with
  | some dfE, some dfI =>
    match compute_mean_and_boundaries (longToVizDF exposto_name dfE) exposto_name,
          compute_mean_and_boundaries (longToVizDF infectado_name dfI) infectado_name with
    | Except.ok aggE, Except.ok aggI =>
        (merge_validate_1to1 aggE aggI).map (fun merged =>
          merged.map (fun p => ⟨p.1.dias, p.1, p.2, start_date + (p.1.dias : Int)⟩))
    | Except.error msg, _ => Except.error msg
    | _, Except.error msg => Except.error msg
  | _, _ => Except.error "Length mismatch between the ndarray and the t_space index"

/-! ### data.py : `load_population` (lines 93-131)

    assert by in ['state', 'city']
    return (pd.read_csv(IBGE_POPULATION_PATH)
              .rename(columns={'uf': 'state'})
              .assign(city=lambda df: df.city + '/' + df.state)
              .groupby(by)['estimated_population'].sum().sort_index())

The static reference file is not part of the sources, so its rows are a
parameter: records with a state code `uf`, a city name and an integer
`estimated_population`. -/

structure PopRecord where
  uf : String
  city : String
  estimated_population : Int
deriving DecidableEq

/-- Group key chosen by `groupby(by)` after the rename and the
composite-key `assign`: the `"city"` key is `city + '/' + state`. -/
def popKey (b : String) (r : PopRecord) : String :=
  if b = "city" then r.city ++ "/" ++ r.uf else r.uf

/-- Model of `load_population(by)` applied to the reference file `file`;
`none` is the failed `assert`. -/
def load_population (b : String) (file : List PopRecord) : Option (List (String × Int)) :=
  if b = "state" ∨ b = "city" then
    some ((List.insertionSort (· ≤ ·) ((file.map (popKey b)).dedup)).map
      (fun k => (k, ((file.filter (fun r => popKey b r = k)).map
                       PopRecord.estimated_population).sum)))
  else none

/-! ## Theorems -/

/-- C7: `load_cases(by, source)` fails via assertion, before performing
any network fetch, whenever `source` is not one of ms/wcota/fiocruz, or
`by` is not one of state/city, or `by='city'` is requested together
with `source='ms'`. -/
theorem C7_load_cases_asserts (b source : String)
    (h : ¬ (source = "ms" ∨ source = "wcota" ∨ source = "fiocruz")
       ∨ ¬ (b = "state" ∨ b = "city")
       ∨ (b = "city" ∧ source = "ms")) :
    load_cases_dispatch b source = FetchStep.assertionError := by
  unfold load_cases_dispatch
  rcases h with h | h | ⟨hb, hs⟩
  · rw [if_pos h]
  · rcases Decidable.em (source = "ms" ∨ source = "wcota" ∨ source = "fiocruz") with hs | hs
    · rw [if_neg (not_not_intro hs), if_pos h]
    · rw [if_pos hs]
  · subst hb hs
    simp

/-- Witness for C7 at the concrete invalid combination
`by='city'`, `source='ms'`. -/
theorem C7_load_cases_asserts_witness :
    load_cases_dispatch "city" "ms" = FetchStep.assertionError :=
  C7_load_cases_asserts "city" "ms" (Or.inr (Or.inr ⟨rfl, rfl⟩))

/-- C4: `_treat_negative_values_to_plot` does not change its input in
any way: the returned table is the input table (in particular no
non-positive value is replaced by 1.0), and moreover the computed
`numeric_columns` list is always empty because `is_numeric_dtype` is
applied to the string column labels. -/
theorem C4_treat_negative_values_noop (df : PlotDF) :
    treat_negative_values_to_plot df = df ∧ numeric_columns_of df = [] := by
  refine ⟨rfl, ?_⟩
  simp [numeric_columns_of, is_numeric_dtype_of_label]

/-- C2: at the concrete input `[[1,2,3],[4,5,6]]` (two sample rows,
three day columns) with `min_days = 1`, the slice the code performs
(`r0_samples[-min_days:]`, first axis) keeps the full three day columns
of the last sample row, instead of restricting every row to its most
recent single day column as the claim describes. -/
theorem C2_plot_r0_slices_rows_not_columns :
    plot_r0_cut [[(1 : Int), 2, 3], [4, 5, 6]] 1 = [[4, 5, 6]]
  ∧ restrict_last_columns [[(1 : Int), 2, 3], [4, 5, 6]] 1 = [[3], [6]]
  ∧ plot_r0_cut [[(1 : Int), 2, 3], [4, 5, 6]] 1
      ≠ restrict_last_columns [[(1 : Int), 2, 3], [4, 5, 6]] 1 := by
  decide

/-- C1, counterexample: for the single raw record
(date 0, region "SP", 1 new case, 1 total), the outer column level of
the `load_cases` output is the region list `["SP"]` — not
`{newCases, totalCases}`, which `swaplevel(axis=1)` moved to the inner
level. -/
theorem C1_counterexample :
    (load_cases_table [⟨0, "SP", 1, 1⟩]).colIndex.outer = ["SP"]
  ∧ "newCases" ∉ (load_cases_table [⟨0, "SP", 1, 1⟩]).colIndex.outer
  ∧ (load_cases_table [⟨0, "SP", 1, 1⟩]).colIndex.inner = measuresList := by
  decide

/-- C1 (amended): for every nonempty raw frame, the `load_cases` output
has a two-level column index whose *outer* level is the (sorted) region
keys and whose *inner* level is exactly `{newCases, totalCases}`; its
row index is sorted by date ascending and covers every raw date; every
raw region appears as an outer column; and every cell left `NaN` by
`unstack` (no raw row at that date/region) is filled with the integer 0. -/
theorem C1_load_cases_shape (rows : List RawRow) (_hne : rows ≠ []) :
    (load_cases_table rows).colIndex.outer = tableRegionsOf rows
  ∧ (load_cases_table rows).colIndex.inner = measuresList
  ∧ List.Sorted (· ≤ ·) (load_cases_table rows).dates
  ∧ (∀ r ∈ rows, r.date ∈ (load_cases_table rows).dates)
  ∧ (∀ r ∈ rows, r.region ∈ (load_cases_table rows).colIndex.outer)
  ∧ (∀ d reg m, cellOpt rows d reg m = none → (load_cases_table rows).cell d reg m = 0) := by
  refine ⟨rfl, rfl, ?_, ?_, ?_, ?_⟩
  · exact List.sorted_insertionSort _ _
  · intro r hr
    show r.date ∈ tableDatesOf rows
    rw [tableDatesOf, List.mem_insertionSort, List.mem_dedup]
    exact List.mem_map_of_mem _ hr
  · intro r hr
    show r.region ∈ tableRegionsOf rows
    rw [tableRegionsOf, List.mem_insertionSort, List.mem_dedup]
    exact List.mem_map_of_mem _ hr
  · intro d reg m hnone
    show fillna0 (cellOpt rows d reg m) = 0
    rw [hnone]
    rfl

/-- Witness for C1 (amended) at a concrete two-date frame. -/
theorem C1_load_cases_shape_witness :
    ([⟨0, "SP", 3, 4⟩, ⟨1, "SP", 2, 6⟩] : List RawRow) ≠ []
  ∧ ((load_cases_table [⟨0, "SP", 3, 4⟩, ⟨1, "SP", 2, 6⟩]).colIndex.outer
        = tableRegionsOf [⟨0, "SP", 3, 4⟩, ⟨1, "SP", 2, 6⟩]
    ∧ (load_cases_table [⟨0, "SP", 3, 4⟩, ⟨1, "SP", 2, 6⟩]).colIndex.inner = measuresList
    ∧ List.Sorted (· ≤ ·) (load_cases_table [⟨0, "SP", 3, 4⟩, ⟨1, "SP", 2, 6⟩]).dates
    ∧ (∀ r ∈ ([⟨0, "SP", 3, 4⟩, ⟨1, "SP", 2, 6⟩] : List RawRow),
          r.date ∈ (load_cases_table [⟨0, "SP", 3, 4⟩, ⟨1, "SP", 2, 6⟩]).dates)
    ∧ (∀ r ∈ ([⟨0, "SP", 3, 4⟩, ⟨1, "SP", 2, 6⟩] : List RawRow),
          r.region ∈ (load_cases_table [⟨0, "SP", 3, 4⟩, ⟨1, "SP", 2, 6⟩]).colIndex.outer)
    ∧ (∀ d reg m, cellOpt [⟨0, "SP", 3, 4⟩, ⟨1, "SP", 2, 6⟩] d reg m = none →
          (load_cases_table [⟨0, "SP", 3, 4⟩, ⟨1, "SP", 2, 6⟩]).cell d reg m = 0)) :=
  ⟨by decide, C1_load_cases_shape _ (by decide)⟩

/-- C8: `compute_mean_and_boundaries(df, variable)` raises the
descriptive `ValueError` if and only if the variable is not one of the
frame's columns. -/
theorem C8_compute_raises_iff (df : VizDF) (var : String) :
    compute_mean_and_boundaries df var = Except.error (no_column_msg var)
      ↔ var ∉ VizDF.columns df := by
  unfold compute_mean_and_boundaries
  by_cases h : var ∈ VizDF.columns df
  · simp [h]
  · simp [h]

/-- C6: when the variable is a column, `compute_mean_and_boundaries`
returns a frame whose upper-bound column is exactly mean plus std and
whose lower-bound column is exactly mean minus std on every time step,
and all of whose column names carry the `variable + "_"` name prefixed. -/
theorem C6_upper_lower_exact (df : VizDF) (var : String)
    (h : var ∈ VizDF.columns df) :
    ∃ out : AggDF, compute_mean_and_boundaries df var = Except.ok out
      ∧ out.cols = [var ++ "_" ++ "mean", var ++ "_" ++ "std",
                    var ++ "_" ++ "upper", var ++ "_" ++ "lower"]
      ∧ (∀ c ∈ out.cols, ∃ s, c = var ++ "_" ++ s)
      ∧ ∀ row ∈ out.rows, row.upper = row.mean + row.std
          ∧ row.lower = row.mean - row.std := by
  unfold compute_mean_and_boundaries
  rw [if_pos h]
  refine ⟨_, rfl, rfl, ?_, ?_⟩
  · intro c hc
    simp only [List.mem_cons, List.not_mem_nil, or_false] at hc
    rcases hc with rfl | rfl | rfl | rfl
    · exact ⟨"mean", rfl⟩
    · exact ⟨"std", rfl⟩
    · exact ⟨"upper", rfl⟩
    · exact ⟨"lower", rfl⟩
  · intro row hrow
    simp only [List.mem_map] at hrow
    obtain ⟨g, hg, rfl⟩ := hrow
    exact ⟨rfl, rfl⟩

/-- Witness for C6 at a concrete one-row frame with data column "x". -/
theorem C6_upper_lower_exact_witness :
    ("x" ∈ VizDF.columns ⟨["iteration", "x"], [(0, fun _ => 1)]⟩)
  ∧ (∃ out : AggDF,
      compute_mean_and_boundaries ⟨["iteration", "x"], [(0, fun _ => 1)]⟩ "x" = Except.ok out
      ∧ out.cols = ["x" ++ "_" ++ "mean", "x" ++ "_" ++ "std",
                    "x" ++ "_" ++ "upper", "x" ++ "_" ++ "lower"]
      ∧ (∀ c ∈ out.cols, ∃ s, c = "x" ++ "_" ++ s)
      ∧ ∀ row ∈ out.rows, row.upper = row.mean + row.std
          ∧ row.lower = row.mean - row.std) :=
  ⟨by simp [VizDF.columns], C6_upper_lower_exact _ _ (by simp [VizDF.columns])⟩

/-- C10: for `by` in {state, city}, `load_population` (applied to a
reference file whose per-row population counts are positive) returns a
uniquely-keyed mapping sorted ascending by key with strictly positive
values, where each value is the sum of the populations of all file rows
sharing the key (duplicate keys are summed) and, for `by='city'`, every
key is the composite `city + "/" + state` of some file row. -/
theorem C10_load_population_shape (b : String) (file : List PopRecord)
    (hb : b = "state" ∨ b = "city")
    (hpos : ∀ r ∈ file, 0 < r.estimated_population) :
    ∃ out, load_population b file = some out
      ∧ (out.map Prod.fst).Nodup
      ∧ List.Sorted (· ≤ ·) (out.map Prod.fst)
      ∧ (∀ p ∈ out, 0 < p.2)
      ∧ (∀ p ∈ out, p.2 = ((file.filter (fun r => popKey b r = p.1)).map
            PopRecord.estimated_population).sum)
      ∧ (b = "city" → ∀ p ∈ out, ∃ r ∈ file, p.1 = r.city ++ "/" ++ r.uf) := by
  rw [load_population, if_pos hb]
  refine ⟨_, rfl, ?_, ?_, ?_, ?_, ?_⟩
  · have hmap : ((List.insertionSort (· ≤ ·) ((file.map (popKey b)).dedup)).map
        (fun k => (k, ((file.filter (fun r => popKey b r = k)).map
          PopRecord.estimated_population).sum))).map Prod.fst
        = List.insertionSort (· ≤ ·) ((file.map (popKey b)).dedup) := by
      rw [List.map_map]
      exact List.map_id _
    rw [hmap]
    exact (List.perm_insertionSort _ _).symm.nodup (List.nodup_dedup _)
  · have hmap : ((List.insertionSort (· ≤ ·) ((file.map (popKey b)).dedup)).map
        (fun k => (k, ((file.filter (fun r => popKey b r = k)).map
          PopRecord.estimated_population).sum))).map Prod.fst
        = List.insertionSort (· ≤ ·) ((file.map (popKey b)).dedup) := by
      rw [List.map_map]
      exact List.map_id _
    rw [hmap]
    exact List.sorted_insertionSort _ _
  · intro p hp
    simp only [List.mem_map] at hp
    obtain ⟨k, hk, rfl⟩ := hp
    rw [List.mem_insertionSort, List.mem_dedup, List.mem_map] at hk
    obtain ⟨r0, hr0, hkey⟩ := hk
    have hr0f : r0 ∈ file.filter (fun r => popKey b r = k) := by
      rw [List.mem_filter]
      exact ⟨hr0, by simp [hkey]⟩
    refine List.sum_pos _ ?_ ?_
    · intro x hx
      rw [List.mem_map] at hx
      obtain ⟨r, hr, rfl⟩ := hx
      exact hpos r (List.mem_filter.mp hr).1
    · exact List.ne_nil_of_mem (List.mem_map_of_mem _ hr0f)
  · intro p hp
    simp only [List.mem_map] at hp
    obtain ⟨k, hk, rfl⟩ := hp
    rfl
  · intro hcity p hp
    simp only [List.mem_map] at hp
    obtain ⟨k, hk, rfl⟩ := hp
    rw [List.mem_insertionSort, List.mem_dedup, List.mem_map] at hk
    obtain ⟨r0, hr0, hkey⟩ := hk
    refine ⟨r0, hr0, ?_⟩
    rw [← hkey, popKey, if_pos hcity]

/-- Witness for C10 at a concrete one-row reference file. -/
theorem C10_load_population_shape_witness :
    (("state" : String) = "state" ∨ ("state" : String) = "city")
  ∧ (∀ r ∈ ([⟨"SP", "Campinas", 100⟩] : List PopRecord), 0 < r.estimated_population)
  ∧ (∃ out, load_population "state" [⟨"SP", "Campinas", 100⟩] = some out
      ∧ (out.map Prod.fst).Nodup
      ∧ List.Sorted (· ≤ ·) (out.map Prod.fst)
      ∧ (∀ p ∈ out, 0 < p.2)
      ∧ (∀ p ∈ out, p.2 = ((([⟨"SP", "Campinas", 100⟩] : List PopRecord).filter
            (fun r => popKey "state" r = p.1)).map PopRecord.estimated_population).sum)
      ∧ (("state" : String) = "city" →
          ∀ p ∈ out, ∃ r ∈ ([⟨"SP", "Campinas", 100⟩] : List PopRecord),
            p.1 = r.city ++ "/" ++ r.uf)) :=
  ⟨Or.inl rfl, by decide,
    C10_load_population_shape "state" [⟨"SP", "Campinas", 100⟩] (Or.inl rfl) (by decide)⟩

/-- C5, counterexample: for the prepared fiocruz rows
(date 0, "SP", 5), (date 1, "RJ", 3), (date 2, "SP", 1), both dates 0
and 1 are rows of the final table (date 1 exists because of "RJ"), but
the "SP" `totalCases` cell falls from 5 at date 0 to 0 at date 1: the
`fillna(0)` of the final reshaping breaks monotonicity at dates where a
region has no raw row. -/
theorem C5_counterexample :
    (0 : Nat) ∈ fiocruzTableDates [⟨0, "SP", 5⟩, ⟨1, "RJ", 3⟩, ⟨2, "SP", 1⟩]
  ∧ (1 : Nat) ∈ fiocruzTableDates [⟨0, "SP", 5⟩, ⟨1, "RJ", 3⟩, ⟨2, "SP", 1⟩]
  ∧ fiocruz_totalCases [⟨0, "SP", 5⟩, ⟨1, "RJ", 3⟩, ⟨2, "SP", 1⟩] 0 "SP" = 5
  ∧ fiocruz_totalCases [⟨0, "SP", 5⟩, ⟨1, "RJ", 3⟩, ⟨2, "SP", 1⟩] 1 "SP" = 0
  ∧ ¬ (fiocruz_totalCases [⟨0, "SP", 5⟩, ⟨1, "RJ", 3⟩, ⟨2, "SP", 1⟩] 0 "SP"
        ≤ fiocruz_totalCases [⟨0, "SP", 5⟩, ⟨1, "RJ", 3⟩, ⟨2, "SP", 1⟩] 1 "SP") := by
  decide

/-- Every row paired with its cumulative value comes from the processed
list. -/
theorem withCumsum_fst_mem (q : FRow × Int) :
    ∀ (rows pre : List FRow), q ∈ withCumsum pre rows → q.1 ∈ rows := by
  intro rows
  induction rows with
  | nil => intro pre h; simp [withCumsum] at h
  | cons r rs ih =>
    intro pre h
    simp only [withCumsum, List.mem_cons] at h
    rcases h with h | h
    · rw [h]; exact List.mem_cons_self _ _
    · exact List.mem_cons_of_mem _ (ih _ h)

/-- Key lemma for C5: on a date-sorted frame with no repeated
(date, region) pair, the summed cumulative values at a key that is
present equal the date-bounded region sum of `newCases`. -/
theorem withCumsum_filter_sum (d : Nat) (reg : String) :
    ∀ (rows pre : List FRow),
    (∀ a ∈ pre, ∀ b ∈ rows, a.date ≤ b.date) →
    List.Pairwise (fun a b => a.date ≤ b.date) rows →
    List.Pairwise (fun a b => ¬(a.date = b.date ∧ a.region = b.region)) (pre ++ rows) →
    (∀ a ∈ pre, ¬(a.date = d ∧ a.region = reg)) →
    (∃ r ∈ rows, r.date = d ∧ r.region = reg) →
    (((withCumsum pre rows).filter
        (fun q => q.1.date = d ∧ q.1.region = reg)).map Prod.snd).sum
      = regionSumLe (pre ++ rows) reg d := by
  intro rows
  induction rows with
  | nil => intro pre _ _ _ _ hmem; simp at hmem
  | cons r rs ih =>
    intro pre hdates hsorted huniq hpre hmem
    have hsorted_tail : List.Pairwise (fun a b => a.date ≤ b.date) rs :=
      (List.pairwise_cons.mp hsorted).2
    have hr_le : ∀ b ∈ rs, r.date ≤ b.date := (List.pairwise_cons.mp hsorted).1
    have huniq' : List.Pairwise (fun a b => ¬(a.date = b.date ∧ a.region = b.region))
        ((pre ++ [r]) ++ rs) := by
      rw [List.append_assoc, List.singleton_append]; exact huniq
    have hr_uniq : ∀ b ∈ rs, ¬(r.date = b.date ∧ r.region = b.region) :=
      (List.pairwise_cons.mp (List.pairwise_append.mp huniq).2.1).1
    by_cases hr : r.date = d ∧ r.region = reg
    · have htail : (withCumsum (pre ++ [r]) rs).filter
          (fun q => q.1.date = d ∧ q.1.region = reg) = [] := by
        rw [List.filter_eq_nil_iff]
        intro q hq
        have hq1 := withCumsum_fst_mem q rs (pre ++ [r]) hq
        simp only [decide_eq_true_eq, not_and]
        intro hqd hqr
        exact hr_uniq q.1 hq1 ⟨hr.1.trans hqd.symm, hr.2.trans hqr.symm⟩
      have hsum : (((withCumsum pre (r :: rs)).filter
          (fun q => q.1.date = d ∧ q.1.region = reg)).map Prod.snd).sum
          = regionSum (pre ++ [r]) r.region := by
        simp only [withCumsum, List.filter_cons]
        rw [if_pos (by simp [hr.1, hr.2]), htail]
        simp
      rw [hsum, hr.2]
      have h1 : pre.filter (fun x => x.region = reg ∧ x.date ≤ d)
          = pre.filter (fun x => x.region = reg) := by
        apply List.filter_congr
        intro a ha
        by_cases hreg : a.region = reg
        · simp [hreg, (hdates a ha r (List.mem_cons_self r rs)).trans (le_of_eq hr.1)]
        · simp [hreg]
      have h2 : rs.filter (fun x => x.region = reg ∧ x.date ≤ d) = [] := by
        rw [List.filter_eq_nil_iff]
        intro b hb
        simp only [decide_eq_true_eq, not_and]
        intro hbreg hbd
        have hd_le : d ≤ b.date := hr.1 ▸ hr_le b hb
        exact hr_uniq b hb ⟨hr.1.trans (le_antisymm hbd hd_le).symm, hr.2.trans hbreg.symm⟩
      have hc1 : (decide (r.region = reg ∧ r.date ≤ d)) = true := by
        simp [hr.2, hr.1.le]
      have hc2 : (decide (r.region = reg)) = true := by simp [hr.2]
      simp only [regionSum, regionSumLe, List.filter_append, List.filter_cons,
                 List.filter_nil, List.map_append, List.sum_append, h1, h2]
      rw [if_pos hc2, if_pos hc1]
    · have hmem' : ∃ x ∈ rs, x.date = d ∧ x.region = reg := by
        obtain ⟨x, hx, hxd⟩ := hmem
        rcases List.mem_cons.mp hx with rfl | hx'
        · exact absurd hxd hr
        · exact ⟨x, hx', hxd⟩
      have hdates' : ∀ a ∈ pre ++ [r], ∀ b ∈ rs, a.date ≤ b.date := by
        intro a ha b hb
        rcases List.mem_append.mp ha with ha' | ha'
        · exact hdates a ha' b (List.mem_cons_of_mem _ hb)
        · rw [List.mem_singleton] at ha'; subst ha'; exact hr_le b hb
      have hpre' : ∀ a ∈ pre ++ [r], ¬(a.date = d ∧ a.region = reg) := by
        intro a ha
        rcases List.mem_append.mp ha with ha' | ha'
        · exact hpre a ha'
        · rw [List.mem_singleton] at ha'; subst ha'; exact hr
      have hstep := ih (pre ++ [r]) hdates' hsorted_tail huniq' hpre' hmem'
      have hhead : ((withCumsum pre (r :: rs)).filter
          (fun q => q.1.date = d ∧ q.1.region = reg))
          = (withCumsum (pre ++ [r]) rs).filter
              (fun q => q.1.date = d ∧ q.1.region = reg) := by
        simp only [withCumsum, List.filter_cons]
        rw [if_neg (by simpa using hr)]
      rw [hhead, hstep, List.append_assoc, List.singleton_append]

/-- Date-bounded region sums of non-negative `newCases` are monotone in
the date bound. -/
theorem regionSumLe_mono (l : List FRow) (reg : String) (d1 d2 : Nat)
    (hnn : ∀ r ∈ l, 0 ≤ r.newCases) (h12 : d1 ≤ d2) :
    regionSumLe l reg d1 ≤ regionSumLe l reg d2 := by
  induction l with
  | nil => simp [regionSumLe]
  | cons x xs ih =>
    have hnn' : ∀ r ∈ xs, 0 ≤ r.newCases := fun r hr => hnn r (List.mem_cons_of_mem _ hr)
    have hx : 0 ≤ x.newCases := hnn x (List.mem_cons_self _ _)
    have ih' := ih hnn'
    simp only [regionSumLe, List.filter_cons] at ih' ⊢
    by_cases hreg : x.region = reg
    · by_cases hd1 : x.date ≤ d1
      · rw [if_pos (by simp [hreg, hd1]), if_pos (by simp [hreg, hd1.trans h12])]
        simp only [List.map_cons, List.sum_cons]
        exact add_le_add_left ih' _
      · by_cases hd2 : x.date ≤ d2
        · rw [if_neg (by simp [hd1]), if_pos (by simp [hreg, hd2])]
          simp only [List.map_cons, List.sum_cons]
          exact le_add_of_nonneg_of_le hx ih'
        · rw [if_neg (by simp [hd1]), if_neg (by simp [hd2])]
          exact ih'
    · rw [if_neg (by simp [hreg]), if_neg (by simp [hreg])]
      exact ih'

/-- C5 (amended): for `source='fiocruz'`, provided the prepared rows are
ordered by date, no (date, region) pair repeats, and every `newCases`
value is non-negative, the `totalCases` value of a region is
non-decreasing across the dates at which that region actually has a raw
row (at other table dates the cell is the `fillna` zero, where
monotonicity can fail, as the counterexample shows). -/
theorem C5_fiocruz_totalCases_monotone (rows : List FRow) (d1 d2 : Nat) (reg : String)
    (hsorted : List.Pairwise (fun a b => a.date ≤ b.date) rows)
    (huniq : List.Pairwise (fun a b => ¬(a.date = b.date ∧ a.region = b.region)) rows)
    (hnn : ∀ r ∈ rows, 0 ≤ r.newCases)
    (h1 : ∃ r ∈ rows, r.date = d1 ∧ r.region = reg)
    (h2 : ∃ r ∈ rows, r.date = d2 ∧ r.region = reg)
    (h12 : d1 ≤ d2) :
    fiocruz_totalCases rows d1 reg ≤ fiocruz_totalCases rows d2 reg := by
  have hu : List.Pairwise (fun a b => ¬(a.date = b.date ∧ a.region = b.region))
      ([] ++ rows) := by simpa using huniq
  have k1 := withCumsum_filter_sum d1 reg rows []
    (by simp) hsorted hu (by simp) h1
  have k2 := withCumsum_filter_sum d2 reg rows []
    (by simp) hsorted hu (by simp) h2
  simp only [List.nil_append] at k1 k2
  unfold fiocruz_totalCases
  rw [k1, k2]
  exact regionSumLe_mono rows reg d1 d2 hnn h12

/-- Witness for C5 (amended) at a concrete two-row single-region frame. -/
theorem C5_fiocruz_totalCases_monotone_witness :
    List.Pairwise (fun a b => a.date ≤ b.date) ([⟨0, "SP", 2⟩, ⟨1, "SP", 3⟩] : List FRow)
  ∧ List.Pairwise (fun a b => ¬(a.date = b.date ∧ a.region = b.region))
      ([⟨0, "SP", 2⟩, ⟨1, "SP", 3⟩] : List FRow)
  ∧ (∀ r ∈ ([⟨0, "SP", 2⟩, ⟨1, "SP", 3⟩] : List FRow), 0 ≤ r.newCases)
  ∧ (∃ r ∈ ([⟨0, "SP", 2⟩, ⟨1, "SP", 3⟩] : List FRow), r.date = 0 ∧ r.region = "SP")
  ∧ (∃ r ∈ ([⟨0, "SP", 2⟩, ⟨1, "SP", 3⟩] : List FRow), r.date = 1 ∧ r.region = "SP")
  ∧ fiocruz_totalCases [⟨0, "SP", 2⟩, ⟨1, "SP", 3⟩] 0 "SP"
      ≤ fiocruz_totalCases [⟨0, "SP", 2⟩, ⟨1, "SP", 3⟩] 1 "SP" :=
  ⟨by decide, by decide, by decide, by decide, by decide,
    C5_fiocruz_totalCases_monotone [⟨0, "SP", 2⟩, ⟨1, "SP", 3⟩] 0 1 "SP"
      (by decide) (by decide) (by decide) (by decide) (by decide) (by decide)⟩

/-- C3, counterexample: under the claim's orientation — iterations as
rows (N = 1) and time steps as columns (T = 2, labels `[5, 6]`) — the
code raises (the `pd.DataFrame` index has length 2 but the array has 1
row) instead of producing a 1×2-row long table; the transposed array
(time as rows) is the one that succeeds. -/
theorem C3_counterexample :
    unstack_iterations_ndarray ([[1, 2]] : List (List Int)) [5, 6] = none
  ∧ (unstack_iterations_ndarray ([[1], [2]] : List (List Int)) [5, 6]).isSome = true := by
  decide

/-- Length of a flatMap over `range n` whose groups all have length `T`. -/
theorem flatMap_range_length {β : Type} (f : Nat → List β) (T : Nat)
    (hT : ∀ c, (f c).length = T) :
    ∀ n, ((List.range n).flatMap f).length = n * T := by
  intro n
  induction n with
  | zero => simp
  | succ n ih =>
    rw [List.range_succ, List.flatMap_append, List.flatMap_singleton]
    simp [ih, hT, Nat.succ_mul]

/-- Position `c * T + i` of a flatMap over `range n` with constant group
length `T` reads position `i` of group `c`. -/
theorem flatMap_range_getD {β : Type} (f : Nat → List β) (T : Nat) (dval : β)
    (hT : ∀ c, (f c).length = T) :
    ∀ n c i, c < n → i < T →
      ((List.range n).flatMap f).getD (c * T + i) dval = (f c).getD i dval := by
  intro n
  induction n with
  | zero => intro c i hc _; exact absurd hc (Nat.not_lt_zero c)
  | succ n ih =>
    intro c i hc hi
    rw [List.range_succ, List.flatMap_append, List.flatMap_singleton]
    rcases Nat.lt_or_ge c n with h | h
    · have h3 : c * T + T ≤ n * T := by
        have h4 : (c + 1) * T ≤ n * T := Nat.mul_le_mul_right T (Nat.succ_le_of_lt h)
        simpa [Nat.succ_mul] using h4
      have hidx : c * T + i < ((List.range n).flatMap f).length := by
        rw [flatMap_range_length f T hT n]
        exact lt_of_lt_of_le (Nat.add_lt_add_left hi _) h3
      rw [List.getD_append _ _ _ _ hidx]
      exact ih c i h hi
    · have hceq : c = n := Nat.le_antisymm (Nat.lt_succ_iff.mp hc) h
      subst hceq
      have hlen : ((List.range c).flatMap f).length = c * T := flatMap_range_length f T hT c
      rw [List.getD_append_right _ _ _ _ (hlen ▸ Nat.le_add_right (c * T) i)]
      rw [hlen, Nat.add_sub_cancel_left]

/-- C3 (amended): `unstack_iterations_ndarray` applied to an array with
time steps as its T rows (matching `t_space`, as the
`pd.DataFrame(arr, index=t_space)` construction requires) and N
iterations as its columns produces exactly N×T rows, where the row at
position `c * T + i` carries iteration `c`, time step `t_space[i]` and
the array cell at (time row `i`, iteration column `c`). -/
theorem C3_unstack_shape {α : Type} [Inhabited α] (arr : List (List α))
    (t_space : List Nat) (N : Nat)
    (hlen : arr.length = t_space.length)
    (hrect : ∀ row ∈ arr, row.length = N) :
    ∃ l, unstack_iterations_ndarray arr t_space = some l
      ∧ l.length = N * t_space.length
      ∧ ∀ c i, c < N → i < t_space.length →
          l.getD (c * t_space.length + i) ⟨0, 0, default⟩
            = ⟨c, t_space.getD i 0, (arr.getD i []).getD c default⟩ := by
  cases arr with
  | nil =>
    have ht : t_space = [] := List.length_eq_zero.mp (by simpa using hlen.symm)
    subst ht
    exact ⟨[], by simp [unstack_iterations_ndarray, unstackGroup], by simp,
      fun c i _ hi => absurd hi (by simp)⟩
  | cons a arest =>
    have hgT : ∀ c, (unstackGroup t_space (a :: arest) c).length = t_space.length := by
      intro c
      simp [unstackGroup, List.length_zip, ← hlen]
    refine ⟨(List.range N).flatMap (unstackGroup t_space (a :: arest)), ?_, ?_, ?_⟩
    · rw [unstack_iterations_ndarray, if_pos hlen]
      rw [List.headD_cons, hrect a (List.mem_cons_self a arest)]
    · exact flatMap_range_length _ _ hgT N
    · intro c i hc hi
      rw [flatMap_range_getD _ t_space.length ⟨0, 0, default⟩ hgT N c i hc hi]
      have hizip : i < ((t_space.zip (a :: arest))).length := by
        rw [List.length_zip, hlen]
        simpa using hi
      have hiarr : i < (a :: arest).length := by rw [hlen]; exact hi
      rw [List.getD_eq_getElem _ _ (by rw [hgT c]; exact hi),
          List.getD_eq_getElem t_space 0 hi,
          List.getD_eq_getElem (a :: arest) [] hiarr]
      simp [unstackGroup, List.getElem_map, List.getElem_zip]

/-- Witness for C3 (amended) at a concrete 2-time-step, 1-iteration
array (time as rows). -/
theorem C3_unstack_shape_witness :
    (([[1], [2]] : List (List Int)).length = ([5, 6] : List Nat).length)
  ∧ (∀ row ∈ ([[1], [2]] : List (List Int)), row.length = 1)
  ∧ (∃ l, unstack_iterations_ndarray ([[1], [2]] : List (List Int)) [5, 6] = some l
      ∧ l.length = 1 * ([5, 6] : List Nat).length
      ∧ ∀ c i, c < 1 → i < ([5, 6] : List Nat).length →
          l.getD (c * ([5, 6] : List Nat).length + i) ⟨0, 0, default⟩
            = ⟨c, ([5, 6] : List Nat).getD i 0,
                (([[1], [2]] : List (List Int)).getD i []).getD c default⟩) :=
  ⟨rfl, by decide, C3_unstack_shape [[1], [2]] [5, 6] 1 rfl (by decide)⟩

/-- Group keys of a frame are distinct (they are deduplicated before
sorting). -/
theorem groupKeys_nodup (df : VizDF) : (groupKeys df).Nodup :=
  (List.perm_insertionSort _ _).symm.nodup (List.nodup_dedup _)

/-- The index of a successful `compute_mean_and_boundaries` output is
exactly the list of group keys. -/
theorem compute_rows_dias (df : VizDF) (var : String) (out : AggDF)
    (h : compute_mean_and_boundaries df var = Except.ok out) :
    out.rows.map AggRow.dias = groupKeys df := by
  rw [compute_mean_and_boundaries] at h
  by_cases hv : var ∈ VizDF.columns df
  · rw [if_pos hv] at h
    injection h with h2
    rw [← h2]
    show (List.map AggRow.dias ((groupKeys df).map _)) = groupKeys df
    generalize groupKeys df = ks
    induction ks with
    | nil => rfl
    | cons g gs ih => simpa using ih
  · rw [if_neg hv] at h
    cases h

/-- The validated merge succeeds exactly on unique keys, and then
left-joins on the key. -/
theorem merge_ok_of_nodup (A B : AggDF) (hA : (A.rows.map AggRow.dias).Nodup)
    (hB : (B.rows.map AggRow.dias).Nodup) :
    merge_validate_1to1 A B = Except.ok (A.rows.map (fun ra =>
      (ra, (B.rows.filter (fun rb => rb.dias = ra.dias)).headD ⟨ra.dias, 0, 0, 0, 0⟩))) := by
  rw [merge_validate_1to1, if_pos ⟨hA, hB⟩]

/-- C9: `prep_tidy_data_to_plot` merges the exposed and infected
per-time-step aggregates with `validate="1:1"` — the merge raises
whenever a side's keys are not unique — and, the aggregate indices
being deduplicated group keys, the pipeline always reaches the merge
with unique keys, succeeds, and stamps every output row with the
calendar date `Datas = start_date + Dias`. -/
theorem C9_prep_tidy_merge (E I : List (List ℝ)) (t_space : List Nat) (start_date : Int)
    (hE : E.length = t_space.length) (hI : I.length = t_space.length) :
    (∃ out, prep_tidy_data_to_plot E I t_space start_date = Except.ok out
        ∧ ∀ r ∈ out, r.datas = start_date + (r.dias : Int))
  ∧ (∀ A B : AggDF, ¬ ((A.rows.map AggRow.dias).Nodup ∧ (B.rows.map AggRow.dias).Nodup) →
      ∃ msg, merge_validate_1to1 A B = Except.error msg) := by
  constructor
  · obtain ⟨dfE, hEu⟩ : ∃ x, unstack_iterations_ndarray E t_space = some x :=
      ⟨_, by rw [unstack_iterations_ndarray, if_pos hE]⟩
    obtain ⟨dfI, hIu⟩ : ∃ x, unstack_iterations_ndarray I t_space = some x :=
      ⟨_, by rw [unstack_iterations_ndarray, if_pos hI]⟩
    have hmemE : exposto_name ∈ VizDF.columns (longToVizDF exposto_name dfE) := by
      simp [VizDF.columns, longToVizDF]
    have hmemI : infectado_name ∈ VizDF.columns (longToVizDF infectado_name dfI) := by
      simp [VizDF.columns, longToVizDF]
    obtain ⟨aggE, hCE⟩ : ∃ x, compute_mean_and_boundaries
        (longToVizDF exposto_name dfE) exposto_name = Except.ok x :=
      ⟨_, by rw [compute_mean_and_boundaries, if_pos hmemE]⟩
    obtain ⟨aggI, hCI⟩ : ∃ x, compute_mean_and_boundaries
        (longToVizDF infectado_name dfI) infectado_name = Except.ok x :=
      ⟨_, by rw [compute_mean_and_boundaries, if_pos hmemI]⟩
    have hdE := compute_rows_dias _ _ _ hCE
    have hdI := compute_rows_dias _ _ _ hCI
    have hmerge := merge_ok_of_nodup aggE aggI
      (hdE ▸ groupKeys_nodup _) (hdI ▸ groupKeys_nodup _)
    have hfinal : prep_tidy_data_to_plot E I t_space start_date
        = Except.ok ((aggE.rows.map (fun ra =>
            (ra, (aggI.rows.filter (fun rb => rb.dias = ra.dias)).headD
              ⟨ra.dias, 0, 0, 0, 0⟩))).map (fun p =>
                (⟨p.1.dias, p.1, p.2, start_date + (p.1.dias : Int)⟩ : TidyRow))) := by
      simp only [prep_tidy_data_to_plot, hEu, hIu, hCE, hCI, hmerge, Except.map]
    refine ⟨_, hfinal, ?_⟩
    intro r hr
    simp only [List.mem_map] at hr
    obtain ⟨p, hp, rfl⟩ := hr
    rfl
  · intro A B hAB
    rw [merge_validate_1to1, if_neg hAB]
    exact ⟨_, rfl⟩

/-- Witness for C9 at concrete 2-step, single-iteration arrays. -/
theorem C9_prep_tidy_merge_witness :
    (([[1], [2]] : List (List ℝ)).length = ([0, 1] : List Nat).length)
  ∧ (([[3], [4]] : List (List ℝ)).length = ([0, 1] : List Nat).length)
  ∧ ((∃ out, prep_tidy_data_to_plot [[1], [2]] [[3], [4]] [0, 1] 7 = Except.ok out
        ∧ ∀ r ∈ out, r.datas = 7 + (r.dias : Int))
    ∧ (∀ A B : AggDF, ¬ ((A.rows.map AggRow.dias).Nodup ∧ (B.rows.map AggRow.dias).Nodup) →
        ∃ msg, merge_validate_1to1 A B = Except.error msg)) :=
  ⟨rfl, rfl, C9_prep_tidy_merge [[1], [2]] [[3], [4]] [0, 1] 7 rfl rfl⟩
